import Mathlib

/-
Verification of the webcrypto sign provider (src/providers/webcrypto/sign.ts).

The embedding is value-level: JavaScript Uint8Array values are lists of
naturals below 256, JavaScript numbers fed to Uint8Array construction are
integers reduced mod 256, promise chains become Except values (the eventual
settlement of the chain), and the single-settlement promise backing the
signer is a settle-once cell, which is the observable semantics of
calling the resolve and reject functions captured from a promise
executor.  The WebCrypto engine and its opaque CryptoKey are external
collaborators, so they are a parameter: an engine over an arbitrary
handle type.
-/

/-- Byte sequences: the value content of a Uint8Array. -/
abbrev Bytes := List Nat

/-- Errors carried by rejected promises or thrown synchronously inside a
try block.  The payloads are abstract messages; reasons passed to abort
are arbitrary JavaScript values, modelled by the abortReason case. -/
inductive JsError where
  | typeError (msg : String)
  | encodeError (msg : String)
  | engineError (msg : String)
  | abortReason (value : String)
deriving DecidableEq, Repr

/-- JavaScript ToUint8 conversion applied by the Uint8Array constructor to
each element of a plain number sequence: reduce the integer mod 256. -/
def toUint8 (i : Int) : Nat := (i % 256).toNat

/-- Modelled from the spec: the Codec capability from dojo-core/encoding
(declared outside this repository) converts text to a sequence of numeric
byte values; encoding may fail, which surfaces as a thrown error. -/
structure Codec where
  encode : String → Except JsError (List Int)

/-- UTF-8 encoding of one character, as byte values. -/
def utf8EncodeChar (c : Char) : List Nat :=
  let n := c.toNat
  if n < 128 then [n]
  else if n < 2048 then [192 + n / 64, 128 + n % 64]
  else if n < 65536 then [224 + n / 4096, 128 + (n / 64) % 64, 128 + n % 64]
  else [240 + n / 262144, 128 + (n / 4096) % 64, 128 + (n / 64) % 64, 128 + n % 64]

/-- UTF-8 encoding of a string, as byte values. -/
def utf8Encode (s : String) : Bytes := (s.data.map utf8EncodeChar).flatten

/-- Modelled from the spec: the default utf8 codec exported by
dojo-core/encoding; its encode never fails on well-formed text. -/
def utf8 : Codec := { encode := fun s => .ok ((utf8Encode s).map Int.ofNat) }

/-- The DEFAULT_CODEC constant of the source. -/
def DEFAULT_CODEC : Codec := utf8

/-- The ALGORITHMS table of the source: crypto algorithm names mapped to
their webcrypto equivalents. -/
def ALGORITHMS : List (String × String) := [("hmac", "hmac")]

/-- The keys of the ALGORITHMS table, as produced by Object.keys. -/
def supportedAlgorithms : List String := ALGORITHMS.map Prod.fst

/-- The HASH table of the source: hash name spellings mapped to their
canonical webcrypto identifiers. -/
def HASH : List (String × String) :=
  [("sha256", "sha-256"), ("sha-256", "sha-256"), ("sha1", "sha-1"), ("sha-1", "sha-1")]

/-- The expression HASH[hash] || hash of the source: table lookup with
verbatim fallback for names absent from the table. -/
def lookupHash (hash : String) : String := ((HASH.lookup hash).getD hash)

/-- A single-quote character as a string, used to build the factory error
message exactly as the source spells it. -/
def singleQuote : String := String.singleton (Char.ofNat 39)

/-- The error message thrown by getSign for an unsupported algorithm name:
it interpolates every key of the ALGORITHMS table. -/
def invalidAlgorithmMessage : String :=
  "invalid algorithm; available algorithms are [ " ++ singleQuote
    ++ String.intercalate (singleQuote ++ ", " ++ singleQuote) supportedAlgorithms
    ++ singleQuote ++ " ]"

/-- String.prototype.toLowerCase as applied by getSign, on the ASCII
range the algorithm names are drawn from. -/
def jsToLowerCase (s : String) : String :=
  String.mk (s.data.map (fun c =>
    if 65 ≤ c.toNat ∧ c.toNat ≤ 90 then Char.ofNat (c.toNat + 32) else c))

/-- Modelled from the spec: the Data payload type declared in the crypto
module outside src/ is a text string, a raw byte buffer, or a sequence of
numeric values.  The jsNull case records that close passes the released
(null) buffer back through the coercion, where the Uint8Array constructor
treats null as length zero. -/
inductive Data where
  | str (s : String)
  | u8 (bytes : Bytes)
  | nums (values : List Int)
  | jsNull
deriving Repr

/-- dataToArrayBufferView of the source: strings are codec-encoded and
wrapped in a Uint8Array, values that already are a Uint8Array are returned
as-is, and every other sequence of numbers is copied element-wise through
ToUint8 into a fresh Uint8Array. -/
def dataToArrayBufferView (data : Data) (codec : Codec) : Except JsError Bytes :=
  match data with
  | .str s => (codec.encode s).map (fun bb => bb.map toUint8)
  | .u8 b => .ok b
  | .nums ns => .ok (ns.map toUint8)
  | .jsNull => .ok []

/-- concatUint8Arrays of the source: allocate a buffer of combined length,
copy left at offset 0 and right at offset left.length.  The value content
of that buffer is the append of the two byte lists. -/
def concatUint8Arrays (left : Bytes) (right : Bytes) : Bytes := left ++ right

/-- The algorithm-plus-hash descriptor handed to importKey: the record
literal with name set to the algorithm and hash.name set to the
normalized hash. -/
structure AlgorithmAndHash where
  name : String
  hashName : String
deriving DecidableEq, Repr

/-- Modelled from the spec: the asynchronous WebCrypto engine
(global.crypto.subtle), a capability producing an opaque key handle from
raw bytes plus a descriptor, and a signature from an algorithm name,
a handle and a byte sequence.  The handle type is a parameter because the
engine is external. -/
structure CryptoEngine (κ : Type) where
  importKey : String → Bytes → AlgorithmAndHash → Bool → List String → Except JsError κ
  sign : String → κ → Bytes → Except JsError Bytes

/-- Modelled from the spec: a SimpleKey, declared in the crypto module
outside src/, is raw secret material (the source casts it to string)
plus a hash algorithm name. -/
structure SimpleKey where
  data : String
  algorithm : String
deriving DecidableEq, Repr

/-- Modelled from the spec: a Key is either an opaque prepared engine
handle or a SimpleKey. -/
inductive Key (κ : Type) where
  | cryptoKey (k : κ)
  | simple (sk : SimpleKey)

/-- A Key or a promise of a Key, as accepted by sign and by the signer
constructor; pending carries the value the promise resolves to. -/
inductive KeyP (κ : Type) where
  | now (k : Key κ)
  | pending (k : Key κ)

/-- Promise.resolve applied to a key-or-promise: a plain value is wrapped,
a pending promise is awaited. -/
def awaitKey : KeyP κ → Key κ
  | .now k => k
  | .pending k => k

/-- produceCryptoKey of the source: an instance of CryptoKey is returned
unchanged; otherwise the key is treated as a SimpleKey, its algorithm
field is normalized through HASH[hash] || hash, its data is encoded with
the fixed utf8 codec (not the caller codec), and the engine imports it
raw, non-extractable, scoped to sign and verify. -/
def produceCryptoKey (engine : CryptoEngine κ) (algorithm : String) (key : Key κ) :
    Except JsError κ :=
  match key with
  | .cryptoKey k => .ok k
  | .simple sk =>
    let algorithmAndHash : AlgorithmAndHash :=
      { name := algorithm, hashName := lookupHash sk.algorithm }
    match utf8.encode sk.data with
    | .error e => .error e
    | .ok bb => engine.importKey "raw" (bb.map toUint8) algorithmAndHash false ["sign", "verify"]

/-- The Promise.resolve(key).then(produceCryptoKey.bind(null, algorithm))
chain of the source: await the key, then dispatch produceCryptoKey on the
resolved value. -/
def resolveCryptoKey (engine : CryptoEngine κ) (algorithm : String) (key : KeyP κ) :
    Except JsError κ :=
  produceCryptoKey engine algorithm (awaitKey key)

/-- sign of the source (the one-shot path): resolve the key, coerce the
data with the caller codec, invoke the engine, and wrap the raw output.
Each rejection propagates unchanged. -/
def sign (engine : CryptoEngine κ) (algorithm : String) (key : KeyP κ) (data : Data)
    (codec : Codec) : Except JsError Bytes :=
  match resolveCryptoKey engine algorithm key with
  | .error e => .error e
  | .ok k =>
    match dataToArrayBufferView data codec with
    | .error e => .error e
    | .ok bytes => engine.sign algorithm k bytes

/-- A deferred result cell settled at most once: the observable semantics
of the resolve and reject functions captured from the signature promise
executor.  Once settled, further settles are no-ops. -/
inductive Settlement (α : Type) where
  | unsettled
  | settled (v : α)
deriving DecidableEq, Repr

/-- Settle the cell: only the first settlement takes effect. -/
def Settlement.settle : Settlement α → α → Settlement α
  | .unsettled, v => .settled v
  | .settled w, _ => .settled w

/-- The WebSigner state: the bound algorithm, key and codec, the running
buffer (none once released by close), and the deferred signature cell. -/
structure WebSigner (κ : Type) where
  algorithm : String
  key : KeyP κ
  codec : Codec
  buffer : Option Bytes
  signature : Settlement (Except JsError Bytes)

/-- The WebSigner constructor: it stores its arguments, calls start
(initializing the buffer to an empty Uint8Array) and creates the pending
signature promise. -/
def WebSigner.make (algorithm : String) (key : KeyP κ) (codec : Codec) : WebSigner κ :=
  { algorithm := algorithm, key := key, codec := codec,
    buffer := some [], signature := .unsettled }

/-- WebSigner.start: reset the buffer to an empty Uint8Array and return a
resolved promise. -/
def WebSigner.start (st : WebSigner κ) : WebSigner κ × Except JsError Unit :=
  ({ st with buffer := some [] }, .ok ())

/-- WebSigner.abort: reject the signature promise with the given reason
(a no-op when it is already settled) and return a resolved promise. -/
def WebSigner.abort (st : WebSigner κ) (reason : JsError) :
    WebSigner κ × Except JsError Unit :=
  ({ st with signature := st.signature.settle (.error reason) }, .ok ())

/-- WebSigner.write: coerce the chunk and append it to the buffer inside a
try block.  A coercion failure is caught and returned as a rejected
per-call promise with the state untouched; after close the buffer is
null, so reading its length inside concatUint8Arrays throws a TypeError,
also caught and returned as a rejection with the state untouched. -/
def WebSigner.write (st : WebSigner κ) (chunk : Data) :
    WebSigner κ × Except JsError Unit :=
  match dataToArrayBufferView chunk st.codec with
  | .error e => (st, .error e)
  | .ok bytes =>
    match st.buffer with
    | none => (st, .error (.typeError "cannot read length of null"))
    | some b => ({ st with buffer := some (concatUint8Arrays b bytes) }, .ok ())

/-- The Data value close passes to sign: the buffer itself, or null once
the buffer has been released. -/
def bufferToData : Option Bytes → Data
  | some b => .u8 b
  | none => .jsNull

/-- WebSigner.close: resolve the signature promise with the one-shot sign
of the accumulated buffer (the promise adopts that eventual outcome, and
the resolution is a no-op when the cell is already settled), release the
buffer, and return a resolved promise.  Nothing in the guarded block
throws synchronously, so the catch branch calling reject is dead. -/
def WebSigner.close (st : WebSigner κ) (engine : CryptoEngine κ) :
    WebSigner κ × Except JsError Unit :=
  ({ st with
      signature := st.signature.settle (sign engine st.algorithm st.key (bufferToData st.buffer) st.codec),
      buffer := none }, .ok ())

/-- One public operation on a streaming signer. -/
inductive SignerOp (κ : Type) where
  | write (chunk : Data)
  | close (engine : CryptoEngine κ)
  | abort (reason : JsError)
  | start

/-- Apply one public operation to the signer state. -/
def applyOp (st : WebSigner κ) (op : SignerOp κ) : WebSigner κ :=
  match op with
  | .write c => (st.write c).1
  | .close e => (st.close e).1
  | .abort r => (st.abort r).1
  | .start => st.start.1

/-- Run a sequence of write calls. -/
def runWrites (st : WebSigner κ) (chunks : List Data) : WebSigner κ :=
  chunks.foldl (fun s c => (s.write c).1) st

/-- Coerce every chunk of a list, none when any coercion fails. -/
def coerceAll (chunks : List Data) (codec : Codec) : Option (List Bytes) :=
  match chunks with
  | [] => some []
  | c :: rest =>
    match dataToArrayBufferView c codec with
    | .error _ => none
    | .ok b => (coerceAll rest codec).map (fun bs => b :: bs)

/-- The SignFunction returned by getSign: it carries the validated
algorithm name; its call form and create form are below. -/
structure SignFunctionModel where
  algorithm : String
deriving DecidableEq, Repr

/-- getSign of the source: lower-case the name, throw synchronously with
the message enumerating the ALGORITHMS keys when the name is not a key,
and otherwise return the bound SignFunction. -/
def getSign (algorithm : String) : Except String SignFunctionModel :=
  let a := jsToLowerCase algorithm
  if a ∈ supportedAlgorithms then .ok { algorithm := a }
  else .error invalidAlgorithmMessage

/-- The direct invocation form of a SignFunction: one-shot sign with the
bound algorithm. -/
def SignFunctionModel.call (f : SignFunctionModel) (engine : CryptoEngine κ) (key : KeyP κ)
    (data : Data) (codec : Codec) : Except JsError Bytes :=
  sign engine f.algorithm key data codec

/-- The create form of a SignFunction: a new WebSigner bound to the same
algorithm. -/
def SignFunctionModel.create (f : SignFunctionModel) (key : KeyP κ) (codec : Codec) :
    WebSigner κ :=
  WebSigner.make f.algorithm key codec

/-- An engine over a transparent handle recording exactly the import
arguments, and signing by returning the recorded key bytes: used to
observe what reaches importKey. -/
def probeEngine : CryptoEngine (Bytes × AlgorithmAndHash) :=
  { importKey := fun _format input desc _extractable _usages => .ok (input, desc),
    sign := fun _ k _ => .ok k.1 }

/-- A deterministic engine over trivial handles whose sign echoes the
payload bytes: used for concrete witnesses. -/
def natEngine : CryptoEngine Nat :=
  { importKey := fun _ _ _ _ _ => .ok 0,
    sign := fun _ _ bytes => .ok bytes }

/-- A codec whose encode always fails: used to exercise coercion
failures. -/
def failingCodec : Codec := { encode := fun _ => .error (.encodeError "boom") }

/-- A codec deliberately different from utf8: used to show the key
material encoding ignores the caller codec. -/
def weirdCodec : Codec := { encode := fun _ => .ok [9, 9] }

/-- Every Unicode scalar value is below 0x110000. -/
theorem char_toNat_lt_limit (c : Char) : c.toNat < 1114112 := by
  rcases c with ⟨v, hv⟩
  rcases hv with h | ⟨h1, h2⟩ <;> simp [Char.toNat] at * <;> omega

/-- Every byte produced by the UTF-8 encoding of one character is below
256. -/
theorem utf8EncodeChar_bytes_lt (c : Char) : ∀ b ∈ utf8EncodeChar c, b < 256 := by
  intro b hb
  have hc := char_toNat_lt_limit c
  unfold utf8EncodeChar at hb
  by_cases h1 : c.toNat < 128
  · simp [h1] at hb
    omega
  · by_cases h2 : c.toNat < 2048
    · simp [h1, h2] at hb
      rcases hb with hb | hb <;> omega
    · by_cases h3 : c.toNat < 65536
      · simp [h1, h2, h3] at hb
        rcases hb with hb | hb | hb <;> omega
      · simp [h1, h2, h3] at hb
        rcases hb with hb | hb | hb | hb <;> omega

/-- Every byte produced by the UTF-8 encoding of a string is below 256. -/
theorem utf8Encode_bytes_lt (s : String) : ∀ b ∈ utf8Encode s, b < 256 := by
  intro b hb
  unfold utf8Encode at hb
  rcases List.mem_flatten.mp hb with ⟨l, hl, hbl⟩
  rcases List.mem_map.mp hl with ⟨c, _, rfl⟩
  exact utf8EncodeChar_bytes_lt c b hbl

/-- Feeding the utf8 codec output through the Uint8Array element
conversion returns exactly the UTF-8 bytes. -/
theorem utf8_encode_toUint8 (s : String) :
    ((utf8Encode s).map Int.ofNat).map toUint8 = utf8Encode s := by
  rw [List.map_map]
  have h : ∀ b ∈ utf8Encode s, (toUint8 ∘ Int.ofNat) b = id b := by
    intro b hb
    have hlt := utf8Encode_bytes_lt s b hb
    simp [toUint8, Function.comp]
    omega
  rw [List.map_congr_left h, List.map_id]

/-- A settled signature cell is preserved by every public operation. -/
theorem signature_settled_absorb (st : WebSigner κ) (v : Except JsError Bytes)
    (op : SignerOp κ) (h : st.signature = .settled v) :
    (applyOp st op).signature = .settled v := by
  cases op with
  | write c =>
    show ((st.write c).1).signature = Settlement.settled v
    unfold WebSigner.write
    cases hc : dataToArrayBufferView c st.codec with
    | error e => simpa using h
    | ok b =>
      cases hb : st.buffer with
      | none => simpa using h
      | some bb => simpa using h
  | close e =>
    show ((st.close e).1).signature = Settlement.settled v
    unfold WebSigner.close
    simp [h, Settlement.settle]
  | abort r =>
    show ((st.abort r).1).signature = Settlement.settled v
    unfold WebSigner.abort
    simp [h, Settlement.settle]
  | start =>
    show (st.start.1).signature = Settlement.settled v
    unfold WebSigner.start
    simpa using h

/-- A settled signature cell is preserved by every sequence of public
operations. -/
theorem signature_settled_foldl (ops : List (SignerOp κ)) (st : WebSigner κ)
    (v : Except JsError Bytes) (h : st.signature = .settled v) :
    (ops.foldl applyOp st).signature = .settled v := by
  induction ops generalizing st with
  | nil => simpa using h
  | cons op rest ih =>
    rw [List.foldl_cons]
    exact ih (applyOp st op) (signature_settled_absorb st v op h)

/-- Sequential writes whose chunks all coerce extend the buffer with the
left fold of concatUint8Arrays over the coerced chunks and touch nothing
else in the state. -/
theorem runWrites_coerceAll (chunks : List Data) (st : WebSigner κ) (b : Bytes)
    (bs : List Bytes) (hb : st.buffer = some b)
    (hc : coerceAll chunks st.codec = some bs) :
    runWrites st chunks = { st with buffer := some (bs.foldl concatUint8Arrays b) } := by
  induction chunks generalizing st b bs with
  | nil =>
    unfold coerceAll at hc
    cases hc
    simp only [runWrites, List.foldl_nil, List.foldl]
    rw [← hb]
  | cons c rest ih =>
    unfold coerceAll at hc
    cases hcc : dataToArrayBufferView c st.codec with
    | error e => rw [hcc] at hc; simp at hc
    | ok b1 =>
      rw [hcc] at hc
      cases hrest : coerceAll rest st.codec with
      | none => rw [hrest] at hc; simp at hc
      | some bs1 =>
        rw [hrest] at hc
        simp only [Option.map_some] at hc
        cases hc
        have hw : (st.write c).1 = { st with buffer := some (concatUint8Arrays b b1) } := by
          unfold WebSigner.write
          rw [hcc, hb]
        have hrw : runWrites st (c :: rest) = runWrites (st.write c).1 rest := by
          simp [runWrites]
        rw [hrw, hw]
        rw [ih { st with buffer := some (concatUint8Arrays b b1) } (concatUint8Arrays b b1) bs1 rfl (by simpa using hrest)]
        simp [List.foldl_cons]

/-- Claim C1: a StreamingSigner created by SignFunction.create that
receives chunks through sequential write calls and is then closed settles
its signature with exactly the one-shot SignFunction result on the
concatenation of the coerced chunks, under the same algorithm, key and
codec. -/
theorem streaming_equals_oneshot (engine : CryptoEngine κ) (f : SignFunctionModel)
    (key : KeyP κ) (codec : Codec) (chunks : List Data) (bs : List Bytes)
    (hc : coerceAll chunks codec = some bs) :
    ((runWrites (f.create key codec) chunks).close engine).1.signature
      = Settlement.settled
          (f.call engine key (Data.u8 (bs.foldl concatUint8Arrays [])) codec) := by
  have hrun := runWrites_coerceAll chunks (f.create key codec) [] bs rfl hc
  rw [hrun]
  rfl

/-- Witness for claim C1 at concrete chunks, engine and key. -/
theorem streaming_equals_oneshot_witness :
    coerceAll [Data.str "ab", Data.u8 [1, 2]] utf8 = some [[97, 98], [1, 2]] ∧
    ((runWrites ((SignFunctionModel.mk "hmac").create (KeyP.now (Key.cryptoKey (0 : Nat))) utf8)
        [Data.str "ab", Data.u8 [1, 2]]).close natEngine).1.signature
      = Settlement.settled ((SignFunctionModel.mk "hmac").call natEngine
          (KeyP.now (Key.cryptoKey 0))
          (Data.u8 ([[97, 98], [1, 2]].foldl concatUint8Arrays [])) utf8) :=
  ⟨by decide,
    streaming_equals_oneshot natEngine (SignFunctionModel.mk "hmac")
      (KeyP.now (Key.cryptoKey 0)) utf8 [Data.str "ab", Data.u8 [1, 2]]
      [[97, 98], [1, 2]] (by decide)⟩

/-- Claim C2: the first terminal call settles the signature result:
aborting an unsettled signer rejects its signature with the given reason,
and no later sequence of write, close, abort or start calls re-settles
it; symmetrically, closing an unsettled signer settles the signature with
the one-shot sign of the buffer and later calls cannot override that
either. -/
theorem first_terminal_call_wins (st : WebSigner κ) (h : st.signature = .unsettled) :
    (∀ (r : JsError) (ops : List (SignerOp κ)),
        (ops.foldl applyOp (applyOp st (.abort r))).signature
          = Settlement.settled (Except.error r)) ∧
    (∀ (engine : CryptoEngine κ) (ops : List (SignerOp κ)),
        (ops.foldl applyOp (applyOp st (.close engine))).signature
          = Settlement.settled
              (sign engine st.algorithm st.key (bufferToData st.buffer) st.codec)) := by
  constructor
  · intro r ops
    apply signature_settled_foldl
    show ((st.abort r).1).signature = _
    unfold WebSigner.abort
    simp [h, Settlement.settle]
  · intro engine ops
    apply signature_settled_foldl
    show ((st.close engine).1).signature = _
    unfold WebSigner.close
    simp [h, Settlement.settle]

/-- Witness for claim C2: abort then close then write on a fresh signer
leaves the signature rejected with the abort reason. -/
theorem first_terminal_call_wins_witness :
    (([SignerOp.close natEngine, SignerOp.write (Data.str "x")]).foldl applyOp
        (applyOp (WebSigner.make "hmac" (KeyP.now (Key.cryptoKey (0 : Nat))) utf8)
          (SignerOp.abort (JsError.abortReason "stop")))).signature
      = Settlement.settled (Except.error (JsError.abortReason "stop")) :=
  (first_terminal_call_wins (WebSigner.make "hmac" (KeyP.now (Key.cryptoKey 0)) utf8) rfl).1
    (JsError.abortReason "stop") [SignerOp.close natEngine, SignerOp.write (Data.str "x")]

/-- Claim C3: getSign lower-cases its argument; when the lowered name is
supported it returns the bound SignFunction, and otherwise it throws
synchronously an error whose message lists every supported algorithm
name. -/
theorem getSign_algorithm_validation (name : String) :
    (jsToLowerCase name ∈ supportedAlgorithms →
        getSign name = .ok { algorithm := jsToLowerCase name }) ∧
    (jsToLowerCase name ∉ supportedAlgorithms →
        getSign name = .error invalidAlgorithmMessage ∧
        ∀ a ∈ supportedAlgorithms,
          ∃ before after, invalidAlgorithmMessage = before ++ a ++ after) := by
  constructor
  · intro h
    simp [getSign, h]
  · intro h
    refine ⟨by simp [getSign, h], ?_⟩
    intro a ha
    simp [supportedAlgorithms, ALGORITHMS] at ha
    subst ha
    exact ⟨"invalid algorithm; available algorithms are [ " ++ singleQuote,
           singleQuote ++ " ]", by decide⟩

/-- Witness for claim C3: an upper-case supported name succeeds and an
unknown name fails with the enumerating message. -/
theorem getSign_algorithm_validation_witness :
    getSign "HMAC" = .ok { algorithm := "hmac" } ∧
    getSign "nope" = .error invalidAlgorithmMessage :=
  ⟨((getSign_algorithm_validation "HMAC").1 (by decide)).trans (by rfl),
    ((getSign_algorithm_validation "nope").2 (by decide)).1⟩

/-- Claim C4 as stated is false: the hash-name normalization is not
case-insensitive.  The upper-case spelling of a supported short name is
not mapped to the canonical identifier but passed through verbatim, so
two case variants of one hash name normalize differently. -/
theorem hash_normalization_not_case_insensitive :
    lookupHash "sha256" = "sha-256" ∧ lookupHash "SHA256" = "SHA256" ∧
    lookupHash "SHA256" ≠ lookupHash "sha256" := by decide

/-- Claim C4 amended: the normalization maps exactly the four lower-case
spellings sha256, sha-256, sha1 and sha-1 to the canonical identifiers
and passes every other hash name, upper and mixed case variants included,
through verbatim; the table match is case-sensitive. -/
theorem hash_normalization_spec :
    lookupHash "sha256" = "sha-256" ∧ lookupHash "sha-256" = "sha-256" ∧
    lookupHash "sha1" = "sha-1" ∧ lookupHash "sha-1" = "sha-1" ∧
    ∀ h : String, h ∉ HASH.map Prod.fst → lookupHash h = h := by
  refine ⟨by decide, by decide, by decide, by decide, ?_⟩
  intro h hm
  simp [HASH] at hm
  obtain ⟨h1, h2, h3, h4⟩ := hm
  have e1 : (h == "sha256") = false := beq_eq_false_iff_ne.mpr h1
  have e2 : (h == "sha-256") = false := beq_eq_false_iff_ne.mpr h2
  have e3 : (h == "sha1") = false := beq_eq_false_iff_ne.mpr h3
  have e4 : (h == "sha-1") = false := beq_eq_false_iff_ne.mpr h4
  simp [lookupHash, HASH, List.lookup, e1, e2, e3, e4]

/-- Witness for the amended claim C4 at a concrete unknown name. -/
theorem hash_normalization_spec_witness :
    ("SHA-999" : String) ∉ HASH.map Prod.fst ∧ lookupHash "SHA-999" = "SHA-999" :=
  ⟨by decide, hash_normalization_spec.2.2.2.2 "SHA-999" (by decide)⟩

/-- Claim C5: a write whose chunk fails to coerce returns that coercion
error on the per-call promise and leaves the signer state — buffer and
signature cell included — exactly unchanged, so the failure is
recoverable and the overall signature is not settled by it. -/
theorem write_coercion_failure_recoverable (st : WebSigner κ) (chunk : Data) (e : JsError)
    (h : dataToArrayBufferView chunk st.codec = .error e) :
    st.write chunk = (st, Except.error e) := by
  unfold WebSigner.write
  rw [h]

/-- Witness for claim C5 with a codec whose encode fails. -/
theorem write_coercion_failure_recoverable_witness :
    (WebSigner.make "hmac" (KeyP.now (Key.cryptoKey (0 : Nat))) failingCodec).write
        (Data.str "x")
      = (WebSigner.make "hmac" (KeyP.now (Key.cryptoKey 0)) failingCodec,
          Except.error (JsError.encodeError "boom")) :=
  write_coercion_failure_recoverable
    (WebSigner.make "hmac" (KeyP.now (Key.cryptoKey 0)) failingCodec)
    (Data.str "x") (JsError.encodeError "boom") rfl

/-- Claim C6: key resolution dispatches three ways — a prepared engine
handle is returned unchanged, a pending key promise is awaited first and
dispatched through the same cases, and a SimpleKey is imported by the
engine from its UTF-8 encoded data together with the algorithm-plus-hash
descriptor. -/
theorem produceCryptoKey_three_way_dispatch (engine : CryptoEngine κ) (algorithm : String) :
    (∀ k : κ, produceCryptoKey engine algorithm (.cryptoKey k) = .ok k) ∧
    (∀ key : Key κ, resolveCryptoKey engine algorithm (.pending key)
        = produceCryptoKey engine algorithm key) ∧
    (∀ sk : SimpleKey, produceCryptoKey engine algorithm (.simple sk)
        = engine.importKey "raw" (utf8Encode sk.data)
            { name := algorithm, hashName := lookupHash sk.algorithm }
            false ["sign", "verify"]) := by
  refine ⟨fun k => rfl, fun key => rfl, fun sk => ?_⟩
  show engine.importKey "raw" (((utf8Encode sk.data).map Int.ofNat).map toUint8)
      { name := algorithm, hashName := lookupHash sk.algorithm } false ["sign", "verify"] = _
  rw [utf8_encode_toUint8]

/-- A released (null) buffer is preserved by write, close and abort;
only start re-initializes it. -/
theorem buffer_none_absorb (st : WebSigner κ) (op : SignerOp κ)
    (h : st.buffer = none) (hop : op ≠ SignerOp.start) :
    (applyOp st op).buffer = none := by
  cases op with
  | write c =>
    show ((st.write c).1).buffer = none
    unfold WebSigner.write
    cases hc : dataToArrayBufferView c st.codec with
    | error e => exact h
    | ok b =>
      rw [h]
      exact h
  | close e => rfl
  | abort r => simpa using h
  | start => exact absurd rfl hop

/-- A released buffer stays released under every sequence of public
operations that does not contain start. -/
theorem buffer_none_foldl (ops : List (SignerOp κ)) (st : WebSigner κ)
    (h : st.buffer = none) (hops : ∀ op ∈ ops, op ≠ SignerOp.start) :
    (ops.foldl applyOp st).buffer = none := by
  induction ops generalizing st with
  | nil => simpa using h
  | cons op rest ih =>
    rw [List.foldl_cons]
    exact ih (applyOp st op)
      (buffer_none_absorb st op h (hops op (List.mem_cons_self op rest)))
      (fun o ho => hops o (List.mem_cons_of_mem op ho))

/-- Claim C7 as stated is false: not every write call after close is
invalid, because the public start call unconditionally re-initializes
the released buffer.  Concretely, close then start then write succeeds —
the per-call promise resolves ok and the chunk is appended to the fresh
buffer. -/
theorem close_start_write_appends :
    (((((WebSigner.make "hmac" (KeyP.now (Key.cryptoKey (0 : Nat))) utf8).close
        natEngine).1).start.1).write (Data.u8 [7, 8])).2 = Except.ok () ∧
    (((((WebSigner.make "hmac" (KeyP.now (Key.cryptoKey (0 : Nat))) utf8).close
        natEngine).1).start.1).write (Data.u8 [7, 8])).1.buffer = some [7, 8] :=
  ⟨rfl, rfl⟩

/-- Claim C7 amended: close releases the buffer to its null state; the
released buffer persists across every later sequence of write, close and
abort calls — start excluded, since the public start call re-initializes
it — and a write issued while the buffer is released rejects instead of
appending, leaving the state unchanged.  So after close every subsequent
write rejects as long as no start call intervenes. -/
theorem close_releases_buffer (engine : CryptoEngine κ) (st : WebSigner κ) :
    (st.close engine).1.buffer = none ∧
    (∀ ops : List (SignerOp κ), (∀ op ∈ ops, op ≠ SignerOp.start) →
        (ops.foldl applyOp (st.close engine).1).buffer = none) ∧
    (∀ st2 : WebSigner κ, st2.buffer = none →
        ∀ chunk : Data, ∃ e, st2.write chunk = (st2, Except.error e)) := by
  refine ⟨rfl, fun ops hops => buffer_none_foldl ops _ rfl hops, ?_⟩
  intro st2 h2 chunk
  unfold WebSigner.write
  cases hc : dataToArrayBufferView chunk st2.codec with
  | error e => exact ⟨e, rfl⟩
  | ok b =>
    rw [h2]
    exact ⟨JsError.typeError "cannot read length of null", rfl⟩

/-- Witness for the amended claim C7: after close the buffer is
released, stays released across a later write and abort, and a write
against the released buffer rejects. -/
theorem close_releases_buffer_witness :
    ((WebSigner.make "hmac" (KeyP.now (Key.cryptoKey (0 : Nat))) utf8).close
        natEngine).1.buffer = none ∧
    (([SignerOp.write (Data.str "x"), SignerOp.abort (JsError.abortReason "r")]).foldl
        applyOp ((WebSigner.make "hmac" (KeyP.now (Key.cryptoKey (0 : Nat))) utf8).close
          natEngine).1).buffer = none ∧
    ∃ e, (((WebSigner.make "hmac" (KeyP.now (Key.cryptoKey (0 : Nat))) utf8).close
        natEngine).1).write (Data.str "x")
      = (((WebSigner.make "hmac" (KeyP.now (Key.cryptoKey (0 : Nat))) utf8).close
          natEngine).1, Except.error e) :=
  ⟨(close_releases_buffer natEngine
      (WebSigner.make "hmac" (KeyP.now (Key.cryptoKey 0)) utf8)).1,
    (close_releases_buffer natEngine
      (WebSigner.make "hmac" (KeyP.now (Key.cryptoKey 0)) utf8)).2.1
      [SignerOp.write (Data.str "x"), SignerOp.abort (JsError.abortReason "r")]
      (by
        intro op hop
        simp only [List.mem_cons, List.not_mem_nil, or_false] at hop
        rcases hop with rfl | rfl <;> intro hc <;> cases hc),
    (close_releases_buffer natEngine
      (WebSigner.make "hmac" (KeyP.now (Key.cryptoKey 0)) utf8)).2.2 _ rfl (Data.str "x")⟩

/-- Claim C8: byte coercion dispatches on the payload shape — a string is
encoded with the given codec, an existing byte sequence is returned
as-is, and any other sequence of numbers, the empty one included, is
copied element-wise into a byte sequence of the same length. -/
theorem dataToArrayBufferView_case_analysis (codec : Codec) :
    (∀ s bb, codec.encode s = .ok bb →
        dataToArrayBufferView (.str s) codec = .ok (bb.map toUint8)) ∧
    (∀ b : Bytes, dataToArrayBufferView (.u8 b) codec = .ok b) ∧
    (∀ ns : List Int, dataToArrayBufferView (.nums ns) codec = .ok (ns.map toUint8) ∧
        (ns.map toUint8).length = ns.length) := by
  refine ⟨?_, fun b => rfl, fun ns => ⟨rfl, by simp⟩⟩
  intro s bb h
  simp [dataToArrayBufferView, h, Except.map]

/-- Witness for claim C8 on all three shapes. -/
theorem dataToArrayBufferView_case_analysis_witness :
    dataToArrayBufferView (.str "hi") utf8 = .ok [104, 105] ∧
    dataToArrayBufferView (.u8 [7]) utf8 = .ok [7] ∧
    dataToArrayBufferView (.nums [-1, 300]) utf8 = .ok [255, 44] :=
  ⟨((dataToArrayBufferView_case_analysis utf8).1 "hi"
      ((utf8Encode "hi").map Int.ofNat) rfl).trans (by rfl),
    (dataToArrayBufferView_case_analysis utf8).2.1 [7],
    (((dataToArrayBufferView_case_analysis utf8).2.2 [-1, 300]).1).trans (by rfl)⟩

/-- Claim C9: concatenation yields a buffer of combined length holding
the left bytes at offset 0 and the right bytes immediately following. -/
theorem concatUint8Arrays_layout (l r : Bytes) :
    (concatUint8Arrays l r).length = l.length + r.length ∧
    (concatUint8Arrays l r).take l.length = l ∧
    (concatUint8Arrays l r).drop l.length = r :=
  ⟨by simp [concatUint8Arrays], List.take_left l r, List.drop_left l r⟩

/-- Claim C10: the byte sequence a SimpleKey hands to the engine
importKey is the UTF-8 encoding of its data field whatever codec the
caller supplies for the payload: against the recording engine the
resolved handle carries exactly those bytes, and the end-to-end sign
output of the recording engine, which echoes the imported key bytes,
equals the UTF-8 encoding of the key data for every payload codec. -/
theorem importKey_input_is_utf8 (algorithm : String) (sk : SimpleKey) (codec : Codec)
    (data : Data) (bs : Bytes) (h : dataToArrayBufferView data codec = .ok bs) :
    produceCryptoKey probeEngine algorithm (.simple sk)
        = .ok (utf8Encode sk.data,
            { name := algorithm, hashName := lookupHash sk.algorithm }) ∧
    sign probeEngine algorithm (.now (.simple sk)) data codec
        = .ok (utf8Encode sk.data) := by
  have hp : produceCryptoKey probeEngine algorithm (Key.simple sk)
      = .ok (utf8Encode sk.data,
          ({ name := algorithm, hashName := lookupHash sk.algorithm } : AlgorithmAndHash)) := by
    show Except.ok (((utf8Encode sk.data).map Int.ofNat).map toUint8,
        ({ name := algorithm, hashName := lookupHash sk.algorithm } : AlgorithmAndHash)) = _
    rw [utf8_encode_toUint8]
  refine ⟨hp, ?_⟩
  unfold sign
  rw [show resolveCryptoKey probeEngine algorithm (KeyP.now (Key.simple sk))
      = produceCryptoKey probeEngine algorithm (Key.simple sk) from rfl, hp, h]
  rfl

/-- Witness for claim C10 with a codec different from utf8. -/
theorem importKey_input_is_utf8_witness :
    dataToArrayBufferView (Data.str "x") weirdCodec = .ok [9, 9] ∧
    sign probeEngine "hmac" (KeyP.now (Key.simple ⟨"secret", "sha256"⟩))
        (Data.str "x") weirdCodec = .ok (utf8Encode "secret") :=
  ⟨by rfl,
    (importKey_input_is_utf8 "hmac" ⟨"secret", "sha256"⟩ weirdCodec
      (Data.str "x") [9, 9] (by rfl)).2⟩
